import Mathlib

/-!
Verification of the external-process exchange pipeline of
`internal/provider/provider.go` (the `programResource` of the
terraform-provider-external repository).

The embedding follows `programResource.Create` line by line:

  * every plan attribute value is rendered by the plugin framework's
    `StringValue.String()` method, which is `fmt.Sprintf("%q", v)`
    (Go quoting); the provider then deletes every double-quote character
    with `strings.Replace(s, "\"", "", -1)`;
  * the program list is filtered of elements whose stripped rendering is
    empty; an empty filtered list raises the "External Program Missing"
    diagnostic before anything is looked up or launched;
  * the query map receives the same treatment and is serialized with
    `encoding/json.Marshal` (keys sorted, HTML-escaping encoder);
  * `exec.LookPath` failure raises "External Program Lookup Failed";
  * the process outcome of `cmd.Output()` is either stdout bytes, an
    `*exec.ExitError` carrying captured stderr and an exit-state string,
    or another error; the two failure shapes raise
    "External Program Execution Failed";
  * stdout is decoded by `json.Unmarshal` into a `map[string]interface{}`
    (accepting any JSON object and JSON null, rejecting every other
    top-level shape and malformed input) and then converted to a
    string-valued map by `types.MapValueFrom`, whose failure produces
    framework conversion diagnostics, not the
    "Unexpected External Program Results" diagnostic;
  * on success the state is set with the constant identifier
    "example-id".

External collaborators (`fmt`, `strings`, `encoding/json`, `os/exec`,
the plugin framework) are modelled at their documented interfaces; the
operating system is an explicit `Env` of a lookup function and a process
runner, and every launch of a subprocess is recorded as a `LaunchEvent`
so that claims about "no subprocess is launched" are statements about
the recorded trace.
-/

namespace External

/-- Lower-case hexadecimal digit, as Go's `strconv` and `encoding/json`
print one. -/
def hexDigit (n : Nat) : Char :=
  if n < 10 then Char.ofNat (48 + n) else Char.ofNat (87 + n)

/-- One character of Go's `%q` rendering (`strconv.Quote`): quote and
backslash are backslash-escaped, printable ASCII is kept, the named control
escapes are used for 0x07-0x0d, other control bytes and 0x7f become `\xhh`.
Runes at 0x80 and above are kept literally (Go escapes the unprintable ones
among them; no input of interest contains such a rune). -/
def goQuoteChar (c : Char) : List Char :=
  if c = '"' then ['\\', '"']
  else if c = '\\' then ['\\', '\\']
  else if 0x20 ≤ c.toNat ∧ c.toNat ≤ 0x7e then [c]
  else if c.toNat = 0x07 then ['\\', 'a']
  else if c.toNat = 0x08 then ['\\', 'b']
  else if c.toNat = 0x0c then ['\\', 'f']
  else if c = '\n' then ['\\', 'n']
  else if c = '\r' then ['\\', 'r']
  else if c = '\t' then ['\\', 't']
  else if c.toNat = 0x0b then ['\\', 'v']
  else if c.toNat < 0x20 then ['\\', 'x', hexDigit (c.toNat / 16), hexDigit (c.toNat % 16)]
  else if c.toNat = 0x7f then ['\\', 'x', '7', 'f']
  else [c]

/-- `List.flatMap` written out, to keep every definition executable and
first-order. -/
def concatMapChars (f : Char → List Char) : List Char → List Char
  | [] => []
  | c :: cs => f c ++ concatMapChars f cs

/-- The plugin framework's `StringValue.String()`: `fmt.Sprintf("%q", v)`,
a double-quoted Go string literal. -/
def goQuote (v : String) : String :=
  ⟨'"' :: (concatMapChars goQuoteChar v.data ++ ['"'])⟩

/-- `strings.Replace(s, "\"", "", -1)`: delete every double-quote
character. -/
def removeQuotes (s : String) : String :=
  ⟨s.data.filter (fun c => c != '"')⟩

/-- The provider's treatment of one plan string value: render it with
`String()` and delete every double quote
(provider.go lines 147 and 162). -/
def stripValue (v : String) : String :=
  removeQuotes (goQuote v)

/-- provider.go lines 144-152: build the argument vector, skipping every
element whose stripped rendering is empty. -/
def processProgram (els : List String) : List String :=
  els.filterMap (fun v =>
    if stripValue v = "" then none else some (stripValue v))

/-- provider.go lines 159-167: build the query map, skipping every entry
whose stripped rendering is empty. Entries keep the list's order; the Go
map has no order and the serializer sorts keys, so no order is observable. -/
def buildQuery (q : List (String × String)) : List (String × String) :=
  q.filterMap (fun kv =>
    if stripValue kv.2 = "" then none else some (kv.1, stripValue kv.2))

/-- One character as `encoding/json`'s default (HTML-escaping) encoder
writes it inside a string: quote and backslash are escaped, `<`, `>`, `&`
become `\u00..`, newline, carriage return and tab use the short escapes,
other control bytes become `\u00hh`, U+2028 and U+2029 are escaped, and
everything else is kept. -/
def goJsonEscapeChar (c : Char) : List Char :=
  if c = '"' then ['\\', '"']
  else if c = '\\' then ['\\', '\\']
  else if c = '<' then ['\\', 'u', '0', '0', '3', 'c']
  else if c = '>' then ['\\', 'u', '0', '0', '3', 'e']
  else if c = '&' then ['\\', 'u', '0', '0', '2', '6']
  else if c = '\n' then ['\\', 'n']
  else if c = '\r' then ['\\', 'r']
  else if c = '\t' then ['\\', 't']
  else if c.toNat < 0x20 then ['\\', 'u', '0', '0', hexDigit (c.toNat / 16), hexDigit (c.toNat % 16)]
  else if c.toNat = 0x2028 then ['\\', 'u', '2', '0', '2', '8']
  else if c.toNat = 0x2029 then ['\\', 'u', '2', '0', '2', '9']
  else [c]

/-- A JSON string literal as `encoding/json` writes one. -/
def goJsonQuote (s : String) : String :=
  ⟨'"' :: (concatMapChars goJsonEscapeChar s.data ++ ['"'])⟩

/-- Byte-wise order on keys, as `encoding/json` sorts a map's keys (UTF-8
byte order agrees with code-point order). -/
def keyLt : List Char → List Char → Bool
  | [], [] => false
  | [], _ :: _ => true
  | _ :: _, [] => false
  | a :: as, b :: bs =>
    if a.toNat < b.toNat then true
    else if b.toNat < a.toNat then false
    else keyLt as bs

/-- Insertion into a key-sorted association list. -/
def insertByKey (p : String × String) : List (String × String) → List (String × String)
  | [] => [p]
  | q :: rest =>
    if keyLt q.1.data p.1.data then q :: insertByKey p rest
    else p :: q :: rest

/-- Sort an association list by key, ascending. -/
def sortByKey (l : List (String × String)) : List (String × String) :=
  l.foldr insertByKey []

/-- Comma-join of serialized members. -/
def joinComma : List String → String
  | [] => ""
  | [s] => s
  | s :: rest => s ++ "," ++ joinComma rest

/-- `encoding/json.Marshal` of a `map[string]string`: a single JSON object,
keys sorted, members `"k":"v"` with the encoder's escaping. It cannot fail
on a string-valued map, so the model is total (the provider's
"Query Handling Failed" branch, lines 169-173, is unreachable). -/
def jsonMarshal (m : List (String × String)) : String :=
  "\x7b" ++ joinComma ((sortByKey m).map (fun kv => goJsonQuote kv.1 ++ ":" ++ goJsonQuote kv.2)) ++ "\x7d"

/-- A decoded JSON value, as `encoding/json` produces one into
`interface{}`: numbers keep their lexeme (their float value is never
inspected by the provider). -/
inductive Json where
  | null
  | bool (b : Bool)
  | num (lexeme : String)
  | str (s : String)
  | arr (elems : List Json)
  | obj (members : List (String × Json))

/-- JSON whitespace, as `encoding/json` skips it. -/
def skipWs : List Char → List Char
  | [] => []
  | c :: cs => if c = ' ' ∨ c = '\t' ∨ c = '\n' ∨ c = '\r' then skipWs cs else c :: cs

/-- Hexadecimal digit of a `\u` escape. -/
def parseHexDigit (c : Char) : Option Nat :=
  if 48 ≤ c.toNat ∧ c.toNat ≤ 57 then some (c.toNat - 48)
  else if 97 ≤ c.toNat ∧ c.toNat ≤ 102 then some (c.toNat - 87)
  else if 65 ≤ c.toNat ∧ c.toNat ≤ 70 then some (c.toNat - 55)
  else none

/-- The body of a JSON string after its opening quote: literal characters
up to the closing quote, with the JSON escapes. Raw control characters are
rejected, as `encoding/json` rejects them. (Surrogate pairing of `\u`
escapes is not re-joined; no input of interest uses surrogates.) -/
def parseJStringAux : Nat → List Char → Option (List Char × List Char)
  | 0, _ => none
  | _ + 1, [] => none
  | fuel + 1, c :: rest =>
    if c = '"' then some ([], rest)
    else if c = '\\' then
      match rest with
      | [] => none
      | e :: rest2 =>
        if e = '"' then (fun p => ('"' :: p.1, p.2)) <$> parseJStringAux fuel rest2
        else if e = '\\' then (fun p => ('\\' :: p.1, p.2)) <$> parseJStringAux fuel rest2
        else if e = '/' then (fun p => ('/' :: p.1, p.2)) <$> parseJStringAux fuel rest2
        else if e = 'b' then (fun p => (Char.ofNat 8 :: p.1, p.2)) <$> parseJStringAux fuel rest2
        else if e = 'f' then (fun p => (Char.ofNat 12 :: p.1, p.2)) <$> parseJStringAux fuel rest2
        else if e = 'n' then (fun p => ('\n' :: p.1, p.2)) <$> parseJStringAux fuel rest2
        else if e = 'r' then (fun p => ('\r' :: p.1, p.2)) <$> parseJStringAux fuel rest2
        else if e = 't' then (fun p => ('\t' :: p.1, p.2)) <$> parseJStringAux fuel rest2
        else if e = 'u' then
          match rest2 with
          | h1 :: h2 :: h3 :: h4 :: rest3 =>
            match parseHexDigit h1, parseHexDigit h2, parseHexDigit h3, parseHexDigit h4 with
            | some a, some b, some c2, some d =>
              (fun p => (Char.ofNat (((a * 16 + b) * 16 + c2) * 16 + d) :: p.1, p.2)) <$>
                parseJStringAux fuel rest3
            | _, _, _, _ => none
          | _ => none
        else none
    else if c.toNat < 0x20 then none
    else (fun p => (c :: p.1, p.2)) <$> parseJStringAux fuel rest

/-- Decimal digit test. -/
def isDigitChar (c : Char) : Bool :=
  48 ≤ c.toNat && c.toNat ≤ 57

/-- Longest digit run. -/
def spanDigits : List Char → List Char × List Char
  | [] => ([], [])
  | c :: cs =>
    if isDigitChar c then
      let p := spanDigits cs
      (c :: p.1, p.2)
    else ([], c :: cs)

/-- The optional exponent of a JSON number lexeme: `([eE] [+-]? [0-9]+)?`
after the digits already collected in `acc`. -/
def parseExpPart (acc : List Char) (cs : List Char) : Option (List Char × List Char) :=
  match cs with
  | 'e' :: '+' :: ds0 =>
    match spanDigits ds0 with
    | ([], _) => none
    | (ds, rest2) => some (acc ++ 'e' :: '+' :: ds, rest2)
  | 'e' :: '-' :: ds0 =>
    match spanDigits ds0 with
    | ([], _) => none
    | (ds, rest2) => some (acc ++ 'e' :: '-' :: ds, rest2)
  | 'e' :: ds0 =>
    match spanDigits ds0 with
    | ([], _) => none
    | (ds, rest2) => some (acc ++ 'e' :: ds, rest2)
  | 'E' :: '+' :: ds0 =>
    match spanDigits ds0 with
    | ([], _) => none
    | (ds, rest2) => some (acc ++ 'E' :: '+' :: ds, rest2)
  | 'E' :: '-' :: ds0 =>
    match spanDigits ds0 with
    | ([], _) => none
    | (ds, rest2) => some (acc ++ 'E' :: '-' :: ds, rest2)
  | 'E' :: ds0 =>
    match spanDigits ds0 with
    | ([], _) => none
    | (ds, rest2) => some (acc ++ 'E' :: ds, rest2)
  | _ => some (acc, cs)

/-- The optional fraction and exponent of a JSON number lexeme:
`(. [0-9]+)? ([eE] [+-]? [0-9]+)?` after the integer part in `acc`. -/
def parseFracPart (acc : List Char) (cs : List Char) : Option (List Char × List Char) :=
  match cs with
  | '.' :: afterDot =>
    match spanDigits afterDot with
    | ([], _) => none
    | (ds, rest2) => parseExpPart (acc ++ '.' :: ds) rest2
  | _ => parseExpPart acc cs

/-- A JSON number lexeme per the grammar `encoding/json` enforces:
`-? (0 | [1-9][0-9]*) (. [0-9]+)? ([eE] [+-]? [0-9]+)?`. -/
def parseNumber (cs : List Char) : Option (List Char × List Char) :=
  let (sign, cs1) :=
    match cs with
    | '-' :: rest => (['-'], rest)
    | _ => (([] : List Char), cs)
  match cs1 with
  | [] => none
  | d :: rest =>
    if ¬ isDigitChar d then none
    else if d = '0' then parseFracPart (sign ++ [d]) rest
    else
      let p := spanDigits rest
      parseFracPart (sign ++ d :: p.1) p.2

mutual

/-- One JSON value starting at the head of the input (no leading
whitespace), returning the value and the unread rest. Fuel bounds the
recursion; `parseTop` supplies more than any input can consume. -/
def parseValue : Nat → List Char → Option (Json × List Char)
  | 0, _ => none
  | _ + 1, [] => none
  | fuel + 1, c :: rest =>
    if c = '"' then
      (fun p => (Json.str ⟨p.1⟩, p.2)) <$> parseJStringAux (fuel + 1) rest
    else if c = 't' then
      match rest with
      | 'r' :: 'u' :: 'e' :: rest2 => some (Json.bool true, rest2)
      | _ => none
    else if c = 'f' then
      match rest with
      | 'a' :: 'l' :: 's' :: 'e' :: rest2 => some (Json.bool false, rest2)
      | _ => none
    else if c = 'n' then
      match rest with
      | 'u' :: 'l' :: 'l' :: rest2 => some (Json.null, rest2)
      | _ => none
    else if c = '[' then
      match skipWs rest with
      | ']' :: rest2 => some (Json.arr [], rest2)
      | cs => (fun p => (Json.arr p.1, p.2)) <$> parseArrayElems fuel cs
    else if c = '\x7b' then
      match skipWs rest with
      | '\x7d' :: rest2 => some (Json.obj [], rest2)
      | cs => (fun p => (Json.obj p.1, p.2)) <$> parseObjMembers fuel cs
    else
      (fun p => (Json.num ⟨p.1⟩, p.2)) <$> parseNumber (c :: rest)

/-- Comma-separated array elements up to `]`. -/
def parseArrayElems : Nat → List Char → Option (List Json × List Char)
  | 0, _ => none
  | fuel + 1, cs =>
    match parseValue fuel cs with
    | none => none
    | some (j, rest) =>
      match skipWs rest with
      | ',' :: rest2 => (fun p => (j :: p.1, p.2)) <$> parseArrayElems fuel (skipWs rest2)
      | ']' :: rest2 => some ([j], rest2)
      | _ => none

/-- Comma-separated `"key": value` members up to the closing brace. -/
def parseObjMembers : Nat → List Char → Option (List (String × Json) × List Char)
  | 0, _ => none
  | fuel + 1, cs =>
    match cs with
    | '"' :: cs1 =>
      match parseJStringAux (fuel + 1) cs1 with
      | none => none
      | some (key, rest) =>
        match skipWs rest with
        | ':' :: rest2 =>
          match parseValue fuel (skipWs rest2) with
          | none => none
          | some (j, rest3) =>
            match skipWs rest3 with
            | ',' :: rest4 => (fun p => ((⟨key⟩, j) :: p.1, p.2)) <$> parseObjMembers fuel (skipWs rest4)
            | '\x7d' :: rest4 => some ([(⟨key⟩, j)], rest4)
            | _ => none
        | _ => none
    | _ => none

end

/-- Parse a whole input as one JSON value: leading and trailing whitespace
allowed, anything after the value rejected ("invalid character after
top-level value"). -/
def parseTop (s : String) : Option Json :=
  match parseValue (2 * s.data.length + 2) (skipWs s.data) with
  | some (j, rest) => if skipWs rest = [] then some j else none
  | none => none

/-- Go map assignment `m[k] = v`: replace the value of an existing key,
append a new one. -/
def assocSet (k : String) (v : Json) : List (String × Json) → List (String × Json)
  | [] => [(k, v)]
  | (k2, v2) :: rest => if k2 = k then (k, v) :: rest else (k2, v2) :: assocSet k v rest

/-- Later duplicate object keys overwrite earlier ones, as filling a Go map
does. -/
def dedupeKeys (kvs : List (String × Json)) : List (String × Json) :=
  kvs.foldl (fun acc kv => assocSet kv.1 kv.2 acc) []

/-- Modelled error text of a JSON syntax error (the provider only embeds
it in a message). -/
def invalidJsonMsg : String := "invalid JSON"

/-- Modelled error text of `json.Unmarshal`'s type mismatch for a
top-level value that is not an object. -/
def unmarshalTypeMsg : String :=
  "json: cannot unmarshal value into Go value of type map[string]interface \x7b\x7d"

/-- `json.Unmarshal(resultJson, &result)` with
`result := map[string]interface{}{}` (provider.go lines 234-235): malformed
input and every top-level shape other than an object is an error — except
JSON `null`, which unmarshals into a map by setting it to nil, with no
error. The error text is modelled, the provider only embeds it in a
message. -/
def unmarshalMap (s : String) : Except String (List (String × Json)) :=
  match parseTop s with
  | none => Except.error invalidJsonMsg
  | some Json.null => Except.ok []
  | some (Json.obj kvs) => Except.ok (dedupeKeys kvs)
  | some _ => Except.error unmarshalTypeMsg

/-- The value of an `interface{}` cell usable as a `types.String`. -/
def jsonAsString : Json → Option String
  | Json.str s => some s
  | _ => none

/-- `types.MapValueFrom(ctx, types.StringType, result)`
(provider.go line 253), modelled at its interface: it succeeds exactly when
every value of the decoded map is a JSON string, with no coercion of
numbers, booleans, nulls, arrays or objects; on failure it returns an
unknown map and error diagnostics. -/
def mapValueFromStrings : List (String × Json) → Option (List (String × String))
  | [] => some []
  | (k, v) :: rest =>
    match jsonAsString v, mapValueFromStrings rest with
    | some s, some tail => some ((k, s) :: tail)
    | _, _ => none

/-- One user-facing error diagnostic, as `resp.Diagnostics.AddError(title,
detail)` records it. -/
structure Diag where
  title : String
  detail : String
  deriving DecidableEq, Repr

/-- provider.go line 155. -/
def programMissingDiag : Diag :=
  ⟨"External Program Missing",
   "The data source was configured without a program to execute. Verify the configuration contains at least one non-empty value."⟩

/-- provider.go lines 170-171 (its guard, `json.Marshal` failing on a
`map[string]string`, is unreachable; the diagnostic is declared so that the
unreachability can be stated). -/
def queryHandlingDiag : Diag :=
  ⟨"Query Handling Failed",
   "The data source received an unexpected error while attempting to parse the query. This is always a bug in the external provider code and should be reported to the provider developers."⟩

/-- The fixed guidance text of the lookup-failure message, provider.go
lines 181-190. -/
def lookupGuidanceText : String :=
  "The data source received an unexpected error while attempting to find the program.\n\nThe program must be accessible according to the platform where Terraform is running.\n\nIf the expected program should be automatically found on the platform where Terraform is running, ensure that the program is in an expected directory. On Unix-based platforms, these directories are typically searched based on the '$PATH' environment variable. On Windows-based platforms, these directories are typically searched based on the '%PATH%' environment variable.\n\nIf the expected program is relative to the Terraform configuration, it is recommended that the program name includes the interpolated value of 'path.module' before the program name to ensure that it is compatible with varying module usage. For example: \"$\x7bpath.module\x7d/my-program\"\n\nThe program must also be executable according to the platform where Terraform is running. On Unix-based platforms, the file on the filesystem must have the executable bit set. On Windows-based platforms, no action is typically necessary.\n"

/-- provider.go lines 180-193: `runtime.GOOS`, the attempted program and
the lookup error are appended to the guidance. -/
def lookupFailedDiag (goos prog errMsg : String) : Diag :=
  ⟨"External Program Lookup Failed",
   lookupGuidanceText ++ "\nPlatform: " ++ goos ++ "\nProgram: " ++ prog ++ "\nError: " ++ errMsg⟩

/-- provider.go lines 211-215: non-zero exit with captured stderr bytes,
included verbatim. -/
def execFailedStderrDiag (path stderr stateMsg : String) : Diag :=
  ⟨"External Program Execution Failed",
   "The data source received an unexpected error while attempting to execute the program."
     ++ "\n\nProgram: " ++ path
     ++ "\nError Message: " ++ stderr
     ++ "\nState: " ++ stateMsg⟩

/-- provider.go lines 219-223: non-zero exit with an empty stderr capture;
only the exit state is named. -/
def execFailedEmptyStderrDiag (path stateMsg : String) : Diag :=
  ⟨"External Program Execution Failed",
   "The data source received an unexpected error while attempting to execute the program.\n\n"
     ++ "The program was executed, however it returned no additional error messaging."
     ++ "\n\nProgram: " ++ path
     ++ "\nState: " ++ stateMsg⟩

/-- provider.go lines 227-230: `cmd.Output()` failed with something other
than an `*exec.ExitError`. -/
def execFailedOtherDiag (path errMsg : String) : Diag :=
  ⟨"External Program Execution Failed",
   "The data source received an unexpected error while attempting to execute the program."
     ++ "\n\nProgram: " ++ path
     ++ "\nError: " ++ errMsg⟩

/-- provider.go lines 237-245. -/
def resultMalformedDiag (path errMsg : String) : Diag :=
  ⟨"Unexpected External Program Results",
   "The data source received unexpected results after executing the program.\n\nProgram output must be a JSON encoded map of string keys and string values.\n\nIf the error is unclear, the output can be viewed by enabling Terraform's logging at TRACE level. Terraform documentation on logging: https://www.terraform.io/internals/debugging\n"
     ++ "\nProgram: " ++ path
     ++ "\nResult Error: " ++ errMsg⟩

/-- Modelled from the plugin framework: the error diagnostic its
reflection emits when `types.MapValueFrom` meets a map value that is not a
string (message abridged; only the title and the fact that it differs from
the provider's own diagnostics matter). -/
def mapConversionDiag : Diag :=
  ⟨"Value Conversion Error",
   "An unexpected error was encountered trying to convert the value. This is always an error in the provider. Please report the following to the provider developer: unhandled element type."⟩

/-- Modelled from the plugin framework: when `types.MapValueFrom` fails it
returns an unknown map, and `resp.State.Set` of a model holding an unknown
value fails with a further conversion diagnostic and leaves the state
unset. -/
def stateSetUnknownDiag : Diag :=
  ⟨"Value Conversion Error",
   "An unexpected error was encountered trying to write an attribute to the state. This is always an error in the provider. Please report the following to the provider developer: unhandled unknown value."⟩

/-- The outcome of `cmd.Output()` (provider.go line 204): captured stdout;
or an `*exec.ExitError` carrying the stderr capture and its rendered exit
state (`err.Error()`, e.g. "exit status 1" or "signal: killed"); or some
other error (e.g. a start failure). -/
inductive RunOutcome where
  | ok (stdout : String)
  | exitErr (stderr : String) (stateMsg : String)
  | otherErr (errMsg : String)
  deriving DecidableEq, Repr

/-- The host the provider runs against: `runtime.GOOS`, `exec.LookPath`
(resolved path or error text), and the subprocess runner, a function of the
resolved path, argument vector, working directory and stdin bytes. A
deadline or cancellation firing before the child exits surfaces here as the
`exitErr` outcome whose state is "signal: killed": `exec.CommandContext`
kills the child and `cmd.Output()` returns the resulting
`*exec.ExitError`. -/
structure Env where
  goos : String
  lookPath : String → Except String String
  run : String → List String → String → String → RunOutcome

/-- The decoded plan of `exec_persisted` (the `execModelV0` fields the
Create pipeline reads): program list, working directory
(`WorkingDir.ValueString()`, "" when null) and query entries. -/
structure Plan where
  program : List String
  workingDir : String
  query : List (String × String)
  deriving DecidableEq, Repr

/-- One recorded subprocess invocation: resolved path, argument vector,
working directory, bytes written to stdin. -/
structure LaunchEvent where
  path : String
  args : List String
  dir : String
  stdin : String
  deriving DecidableEq, Repr

/-- The state record `resp.State.Set` persists on success: the plan copied
verbatim plus the assigned identifier and the result map. -/
structure StateRec where
  id : String
  program : List String
  workingDir : String
  query : List (String × String)
  result : List (String × String)
  deriving DecidableEq, Repr

/-- What one `Create` call produces: the appended error diagnostics, the
state it committed (none on every failure path), and the trace of
subprocess launches. -/
structure CreateResponse where
  diagnostics : List Diag
  state : Option StateRec
  launches : List LaunchEvent
  deriving DecidableEq, Repr

/-- The bytes written to the child's stdin (provider.go lines 168 and
200): the marshalled, filtered query. -/
def stdinBytes (plan : Plan) : String :=
  jsonMarshal (buildQuery plan.query)

/-- provider.go lines 234-263: decode stdout, convert to a string map, set
the state with the constant identifier "example-id". -/
def decodeStage (plan : Plan) (path : String) (ev : LaunchEvent) (stdout : String) :
    CreateResponse :=
  match unmarshalMap stdout with
  | Except.error e => ⟨[resultMalformedDiag path e], none, [ev]⟩
  | Except.ok kvs =>
    match mapValueFromStrings kvs with
    | none => ⟨[mapConversionDiag, stateSetUnknownDiag], none, [ev]⟩
    | some res =>
      ⟨[], some ⟨"example-id", plan.program, plan.workingDir, plan.query, res⟩, [ev]⟩

/-- provider.go lines 198-232: launch the resolved program and translate a
failing `cmd.Output()` into the execution-failure diagnostics
(stderr-bearing exit error, bare exit error, other error). -/
def runStage (env : Env) (plan : Plan) (path : String) (args : List String) :
    CreateResponse :=
  match env.run path args plan.workingDir (stdinBytes plan) with
  | RunOutcome.ok stdout =>
    decodeStage plan path ⟨path, args, plan.workingDir, stdinBytes plan⟩ stdout
  | RunOutcome.exitErr stderr stateMsg =>
    if stderr = "" then
      ⟨[execFailedEmptyStderrDiag path stateMsg], none,
       [⟨path, args, plan.workingDir, stdinBytes plan⟩]⟩
    else
      ⟨[execFailedStderrDiag path stderr stateMsg], none,
       [⟨path, args, plan.workingDir, stdinBytes plan⟩]⟩
  | RunOutcome.otherErr e =>
    ⟨[execFailedOtherDiag path e], none,
     [⟨path, args, plan.workingDir, stdinBytes plan⟩]⟩

/-- provider.go lines 177-196: `exec.LookPath(program[0])`; on failure no
process is launched. On success `exec.CommandContext` resolves the same
name to the same path (`cmd.Path`). -/
def lookupStage (env : Env) (plan : Plan) (p0 : String) (args : List String) :
    CreateResponse :=
  match env.lookPath p0 with
  | Except.error e => ⟨[lookupFailedDiag env.goos p0 e], none, []⟩
  | Except.ok path => runStage env plan path args

/-- `programResource.Create` (provider.go lines 135-264). The stages run
in the source's order; computing the query bytes before the lookup is pure,
so the reordering into `runStage` is unobservable. -/
def createExec (env : Env) (plan : Plan) : CreateResponse :=
  match processProgram plan.program with
  | [] => ⟨[programMissingDiag], none, []⟩
  | p0 :: args => lookupStage env plan p0 args

/-- What a `Read` call produces: the state it answers with and the trace
of subprocess launches it makes. -/
structure ReadResponse where
  state : StateRec
  launches : List LaunchEvent
  deriving DecidableEq, Repr

/-- `programResource.Read` (provider.go lines 266-268): the body is empty;
the response keeps the already-populated state and no process runs. -/
def readExec (current : StateRec) : ReadResponse :=
  ⟨current, []⟩

/-- A concrete host for witnesses and counterexamples: every lookup
resolves to the name itself and every run has the given outcome. -/
def envWith (out : RunOutcome) : Env :=
  ⟨"linux", fun s => Except.ok s, fun _ _ _ _ => out⟩

/-- A top-level JSON shape that `json.Unmarshal` refuses to place into a
map: an array or a scalar other than null. -/
def jsonNonMapTop : Json → Bool
  | Json.bool _ => true
  | Json.num _ => true
  | Json.str _ => true
  | Json.arr _ => true
  | Json.null => false
  | Json.obj _ => false

/-- Substring search (is `needle` a prefix of `hay`). -/
def listIsPrefixOf : List Char → List Char → Bool
  | [], _ => true
  | _ :: _, [] => false
  | a :: as, b :: bs => a = b && listIsPrefixOf as bs

/-- Substring search (does `needle` occur in `hay`). -/
def listOccursIn (needle : List Char) : List Char → Bool
  | [] => listIsPrefixOf needle []
  | b :: bs => listIsPrefixOf needle (b :: bs) || listOccursIn needle bs

/-- Does `needle` occur in `hay` as a contiguous substring. -/
def strSub (needle hay : String) : Bool :=
  listOccursIn needle.data hay.data

/-- A character whose `%q` rendering is itself: printable ASCII other than
the quote and the backslash. -/
def plainChar (c : Char) : Prop :=
  0x20 ≤ c.toNat ∧ c.toNat ≤ 0x7e ∧ c ≠ '"' ∧ c ≠ '\\'

lemma goQuoteChar_plain {c : Char} (h : plainChar c) : goQuoteChar c = [c] := by
  obtain ⟨h1, h2, h3, h4⟩ := h
  unfold goQuoteChar
  rw [if_neg h3, if_neg h4, if_pos ⟨h1, h2⟩]

lemma goQuoteChar_shape (c : Char) :
    (goQuoteChar c = [c] ∧ c ≠ '"') ∨ ∃ rest, goQuoteChar c = '\\' :: rest := by
  unfold goQuoteChar
  by_cases h1 : c = '"'
  · right; rw [if_pos h1]; exact ⟨_, rfl⟩
  rw [if_neg h1]
  by_cases h2 : c = '\\'
  · right; rw [if_pos h2]; exact ⟨_, rfl⟩
  rw [if_neg h2]
  by_cases h3 : 0x20 ≤ c.toNat ∧ c.toNat ≤ 0x7e
  · left; rw [if_pos h3]; exact ⟨rfl, h1⟩
  rw [if_neg h3]
  by_cases h4 : c.toNat = 0x07
  · right; rw [if_pos h4]; exact ⟨_, rfl⟩
  rw [if_neg h4]
  by_cases h5 : c.toNat = 0x08
  · right; rw [if_pos h5]; exact ⟨_, rfl⟩
  rw [if_neg h5]
  by_cases h6 : c.toNat = 0x0c
  · right; rw [if_pos h6]; exact ⟨_, rfl⟩
  rw [if_neg h6]
  by_cases h7 : c = '\n'
  · right; rw [if_pos h7]; exact ⟨_, rfl⟩
  rw [if_neg h7]
  by_cases h8 : c = '\r'
  · right; rw [if_pos h8]; exact ⟨_, rfl⟩
  rw [if_neg h8]
  by_cases h9 : c = '\t'
  · right; rw [if_pos h9]; exact ⟨_, rfl⟩
  rw [if_neg h9]
  by_cases h10 : c.toNat = 0x0b
  · right; rw [if_pos h10]; exact ⟨_, rfl⟩
  rw [if_neg h10]
  by_cases h11 : c.toNat < 0x20
  · right; rw [if_pos h11]; exact ⟨_, rfl⟩
  rw [if_neg h11]
  by_cases h12 : c.toNat = 0x7f
  · right; rw [if_pos h12]; exact ⟨_, rfl⟩
  rw [if_neg h12]
  left; exact ⟨rfl, h1⟩

lemma goQuoteChar_filter_ne_nil (c : Char) :
    (goQuoteChar c).filter (fun x => x != '"') ≠ [] := by
  rcases goQuoteChar_shape c with ⟨heq, hne⟩ | ⟨rest, heq⟩ <;> rw [heq]
  · have hc : (c != '"') = true := by simpa [bne_iff_ne] using hne
    simp [List.filter_cons, hc]
  · simp [List.filter_cons, show (('\\' : Char) != '"') = true from by decide]

lemma concatMapChars_filter_ne_nil {l : List Char} (hl : l ≠ []) :
    (concatMapChars goQuoteChar l).filter (fun x => x != '"') ≠ [] := by
  cases l with
  | nil => exact absurd rfl hl
  | cons c cs =>
    simp only [concatMapChars, List.filter_append, ne_eq, List.append_eq_nil]
    intro h
    exact goQuoteChar_filter_ne_nil c h.1

lemma stripValue_data (v : String) :
    (stripValue v).data = (concatMapChars goQuoteChar v.data).filter (fun x => x != '"') := by
  show (('"' :: (concatMapChars goQuoteChar v.data ++ ['"'])).filter (fun x => x != '"')) = _
  rw [List.filter_cons, List.filter_append]
  simp

lemma string_ext {s t : String} (h : s.data = t.data) : s = t := by
  cases s
  cases t
  exact congrArg String.mk (by simpa using h)

lemma string_eq_empty_iff {s : String} : s = "" ↔ s.data = [] :=
  ⟨fun h => by simpa using congrArg String.data h, fun h => string_ext (by simpa using h)⟩

lemma stripValue_eq_empty_iff (v : String) : stripValue v = "" ↔ v = "" := by
  constructor
  · intro h
    by_contra hv
    have hd : v.data ≠ [] := fun hnil => hv (string_eq_empty_iff.mpr hnil)
    apply concatMapChars_filter_ne_nil hd
    have := congrArg String.data h
    rw [stripValue_data] at this
    simpa using this
  · intro h
    subst h
    rfl

lemma filter_concatMap_plain (l : List Char) (h : ∀ c ∈ l, plainChar c) :
    (concatMapChars goQuoteChar l).filter (fun x => x != '"') = l := by
  induction l with
  | nil => rfl
  | cons c cs ih =>
    have hc := h c (by simp)
    rw [concatMapChars, goQuoteChar_plain hc, List.filter_append]
    rw [ih (fun x hx => h x (by simp [hx]))]
    have hb : (c != '"') = true := by simpa [bne_iff_ne] using hc.2.2.1
    simp [List.filter_cons, hb]

lemma stripValue_plain {v : String} (h : ∀ c ∈ v.data, plainChar c) : stripValue v = v := by
  apply string_ext
  rw [stripValue_data]
  exact filter_concatMap_plain v.data h

lemma stripValue_no_quote (v : String) : '"' ∉ (stripValue v).data := by
  rw [stripValue_data]
  intro h
  have := List.of_mem_filter h
  simp at this

lemma processProgram_eq_nil_iff (els : List String) :
    processProgram els = [] ↔ ∀ v ∈ els, v = "" := by
  induction els with
  | nil => simp [processProgram]
  | cons a as ih =>
    by_cases h : stripValue a = ""
    · have ha : a = "" := (stripValue_eq_empty_iff a).mp h
      simp only [processProgram, List.filterMap_cons, h, if_pos rfl] at *
      simp [ha, ih]
    · have ha : a ≠ "" := fun e => h (by rw [e]; rfl)
      simp only [processProgram, List.filterMap_cons, if_neg h] at *
      simp [ha]

lemma mem_processProgram {a : String} {els : List String} (h : a ∈ processProgram els) :
    ∃ v ∈ els, a = stripValue v := by
  unfold processProgram at h
  rw [List.mem_filterMap] at h
  obtain ⟨v, hv, heq⟩ := h
  by_cases hs : stripValue v = ""
  · simp [hs] at heq
  · rw [if_neg hs] at heq
    exact ⟨v, hv, (Option.some_injective _ heq).symm⟩

lemma buildQuery_eq (q : List (String × String)) :
    buildQuery q =
      (q.filter (fun kv => kv.2 != "")).map (fun kv => (kv.1, stripValue kv.2)) := by
  induction q with
  | nil => rfl
  | cons kv rest ih =>
    by_cases h : stripValue kv.2 = ""
    · have h2 : kv.2 = "" := (stripValue_eq_empty_iff _).mp h
      have hb : (kv.2 != "") = false := by simp [h2]
      simp only [buildQuery, List.filterMap_cons, h, if_pos rfl, List.filter_cons, hb] at *
      simpa using ih
    · have h2 : kv.2 ≠ "" := fun e => h (by rw [e]; rfl)
      have hb : (kv.2 != "") = true := by simpa [bne_iff_ne] using h2
      simp only [buildQuery, List.filterMap_cons, if_neg h, List.filter_cons, hb] at *
      simpa using ih

lemma assocSet_of_not_mem {k : String} {v : Json} {acc : List (String × Json)}
    (h : k ∉ acc.map Prod.fst) : assocSet k v acc = acc ++ [(k, v)] := by
  induction acc with
  | nil => rfl
  | cons kv rest ih =>
    have hne : kv.1 ≠ k := by
      intro e
      exact h (by simp [e])
    rw [assocSet, if_neg hne, ih (fun hm => h (by simp [hm]))]
    simp

lemma dedupeKeys_of_nodup (kvs : List (String × Json)) (h : (kvs.map Prod.fst).Nodup) :
    dedupeKeys kvs = kvs := by
  suffices H : ∀ acc : List (String × Json),
      (∀ k ∈ kvs.map Prod.fst, k ∉ acc.map Prod.fst) → (kvs.map Prod.fst).Nodup →
      List.foldl (fun acc kv => assocSet kv.1 kv.2 acc) acc kvs = acc ++ kvs by
    simpa using H [] (by simp) h
  clear h
  induction kvs with
  | nil => simp
  | cons kv rest ih =>
    intro acc hdisj hnodup
    rw [List.foldl_cons, assocSet_of_not_mem (hdisj kv.1 (by simp))]
    rw [ih (acc ++ [(kv.1, kv.2)]) ?_ (by simpa using hnodup.of_cons)]
    · simp
    · intro k hk
      simp only [List.map_append, List.mem_append] ; rintro (hka | hkv)
      · exact hdisj k (by simp [hk]) hka
      · simp only [List.map_cons, List.nodup_cons] at hnodup
        simp at hkv
        exact hnodup.1 (hkv ▸ hk)

lemma mapValueFromStrings_of_strs (l : List (String × String)) :
    mapValueFromStrings (l.map (fun kv => (kv.1, Json.str kv.2))) = some l := by
  induction l with
  | nil => rfl
  | cons kv rest ih => simp [mapValueFromStrings, jsonAsString, ih]

lemma mapValueFromStrings_none {kvs : List (String × Json)}
    (h : ∃ kv ∈ kvs, jsonAsString kv.2 = none) : mapValueFromStrings kvs = none := by
  induction kvs with
  | nil => simp at h
  | cons kv rest ih =>
    rcases h with ⟨kv2, hmem, hnone⟩
    rcases List.mem_cons.mp hmem with heq | hmem2
    · subst heq
      simp [mapValueFromStrings, hnone]
    · rw [mapValueFromStrings, ih ⟨kv2, hmem2, hnone⟩]
      cases jsonAsString kv.2 <;> rfl

/-- Every diagnostic the decode stage can add. -/
lemma decodeStage_diag_title {plan path ev stdout d}
    (h : d ∈ (decodeStage plan path ev stdout).diagnostics) :
    d.title = "Unexpected External Program Results" ∨ d.title = "Value Conversion Error" := by
  unfold decodeStage at h
  rcases hu : unmarshalMap stdout with e | kvs <;> rw [hu] at h <;> dsimp only at h
  · left
    simp at h
    rw [h]
    rfl
  · rcases hm : mapValueFromStrings kvs with _ | res <;> rw [hm] at h <;> dsimp only at h
    · right
      simp at h
      rcases h with h | h <;> rw [h] <;> rfl
    · simp at h

/-- Every diagnostic the run stage can add. -/
lemma runStage_diag_title {env plan path args d}
    (h : d ∈ (runStage env plan path args).diagnostics) :
    d.title = "External Program Execution Failed" ∨
    d.title = "Unexpected External Program Results" ∨ d.title = "Value Conversion Error" := by
  unfold runStage at h
  rcases hr : env.run path args plan.workingDir (stdinBytes plan) with stdout | ⟨stderr, st⟩ | e <;>
    rw [hr] at h <;> dsimp only at h
  · rcases decodeStage_diag_title h with h2 | h2
    · right; left; exact h2
    · right; right; exact h2
  · by_cases hs : stderr = ""
    · rw [if_pos hs] at h
      simp at h
      left; rw [h]; rfl
    · rw [if_neg hs] at h
      simp at h
      left; rw [h]; rfl
  · simp at h
    left; rw [h]; rfl

/-- Every diagnostic the lookup stage onwards can add. -/
lemma lookupStage_diag_title {env plan p0 args d}
    (h : d ∈ (lookupStage env plan p0 args).diagnostics) :
    d.title = "External Program Lookup Failed" ∨ d.title = "External Program Execution Failed" ∨
    d.title = "Unexpected External Program Results" ∨ d.title = "Value Conversion Error" := by
  unfold lookupStage at h
  rcases hl : env.lookPath p0 with e | path <;> rw [hl] at h <;> dsimp only at h
  · simp at h
    left; rw [h]; rfl
  · right; exact runStage_diag_title h

/-- The complete case analysis of one `Create` call: exactly the early
returns of provider.go lines 135-264. Every claim below consumes this
enumeration. -/
lemma createExec_cases (env : Env) (plan : Plan) :
    (processProgram plan.program = [] ∧
      createExec env plan = ⟨[programMissingDiag], none, []⟩) ∨
    ∃ p0 args, processProgram plan.program = p0 :: args ∧
      ((∃ e, env.lookPath p0 = Except.error e ∧
          createExec env plan = ⟨[lookupFailedDiag env.goos p0 e], none, []⟩) ∨
       (∃ path, env.lookPath p0 = Except.ok path ∧
         ((∃ stderr st,
             env.run path args plan.workingDir (stdinBytes plan) = RunOutcome.exitErr stderr st ∧
             ((stderr = "" ∧ createExec env plan =
                 ⟨[execFailedEmptyStderrDiag path st], none,
                  [⟨path, args, plan.workingDir, stdinBytes plan⟩]⟩) ∨
              (stderr ≠ "" ∧ createExec env plan =
                 ⟨[execFailedStderrDiag path stderr st], none,
                  [⟨path, args, plan.workingDir, stdinBytes plan⟩]⟩))) ∨
          (∃ e, env.run path args plan.workingDir (stdinBytes plan) = RunOutcome.otherErr e ∧
             createExec env plan =
               ⟨[execFailedOtherDiag path e], none,
                [⟨path, args, plan.workingDir, stdinBytes plan⟩]⟩) ∨
          (∃ stdout, env.run path args plan.workingDir (stdinBytes plan) = RunOutcome.ok stdout ∧
             ((∃ e, unmarshalMap stdout = Except.error e ∧
                 createExec env plan =
                   ⟨[resultMalformedDiag path e], none,
                    [⟨path, args, plan.workingDir, stdinBytes plan⟩]⟩) ∨
              (∃ kvs, unmarshalMap stdout = Except.ok kvs ∧
                 ((mapValueFromStrings kvs = none ∧
                     createExec env plan =
                       ⟨[mapConversionDiag, stateSetUnknownDiag], none,
                        [⟨path, args, plan.workingDir, stdinBytes plan⟩]⟩) ∨
                  (∃ res, mapValueFromStrings kvs = some res ∧
                     createExec env plan =
                       ⟨[], some ⟨"example-id", plan.program, plan.workingDir, plan.query, res⟩,
                        [⟨path, args, plan.workingDir, stdinBytes plan⟩]⟩)))))))) := by
  rcases hp : processProgram plan.program with _ | ⟨p0, args⟩
  · left
    exact ⟨rfl, by unfold createExec; rw [hp]⟩
  · right
    refine ⟨p0, args, rfl, ?_⟩
    have hc : createExec env plan = lookupStage env plan p0 args := by
      unfold createExec; rw [hp]
    rcases hl : env.lookPath p0 with e | path
    · left
      exact ⟨e, rfl, by rw [hc]; unfold lookupStage; rw [hl]⟩
    · right
      refine ⟨path, rfl, ?_⟩
      have hc2 : createExec env plan = runStage env plan path args := by
        rw [hc]; unfold lookupStage; rw [hl]
      rcases hr : env.run path args plan.workingDir (stdinBytes plan) with stdout | ⟨stderr, st⟩ | e
      · right; right
        refine ⟨stdout, rfl, ?_⟩
        have hc3 : createExec env plan =
            decodeStage plan path ⟨path, args, plan.workingDir, stdinBytes plan⟩ stdout := by
          rw [hc2]; unfold runStage; rw [hr]
        rcases hu : unmarshalMap stdout with e | kvs
        · left
          exact ⟨e, rfl, by rw [hc3]; unfold decodeStage; rw [hu]⟩
        · right
          refine ⟨kvs, rfl, ?_⟩
          rcases hm : mapValueFromStrings kvs with _ | res
          · left
            exact ⟨rfl, by rw [hc3]; unfold decodeStage; rw [hu]; dsimp only; rw [hm]⟩
          · right
            exact ⟨res, rfl, by rw [hc3]; unfold decodeStage; rw [hu]; dsimp only; rw [hm]⟩
      · left
        refine ⟨stderr, st, rfl, ?_⟩
        by_cases hs : stderr = ""
        · left
          exact ⟨hs, by rw [hc2]; unfold runStage; rw [hr]; dsimp only; rw [if_pos hs]⟩
        · right
          exact ⟨hs, by rw [hc2]; unfold runStage; rw [hr]; dsimp only; rw [if_neg hs]⟩
      · right; left
        exact ⟨e, rfl, by rw [hc2]; unfold runStage; rw [hr]⟩

/-- Any committed state comes from the one success path and carries the
fully decoded result, the constant identifier and the plan copied
verbatim. -/
lemma createExec_state_spec {env : Env} {plan : Plan} {s : StateRec}
    (h : (createExec env plan).state = some s) :
    s.id = "example-id" ∧ s.program = plan.program ∧ s.workingDir = plan.workingDir ∧
    s.query = plan.query ∧ (createExec env plan).diagnostics = [] ∧
    ∃ ev stdout kvs, (createExec env plan).launches = [ev] ∧
      ev.stdin = stdinBytes plan ∧ ev.dir = plan.workingDir ∧
      env.run ev.path ev.args ev.dir ev.stdin = RunOutcome.ok stdout ∧
      unmarshalMap stdout = Except.ok kvs ∧ mapValueFromStrings kvs = some s.result := by
  rcases createExec_cases env plan with ⟨hp, heq⟩ |
    ⟨p0, args, hp, ⟨e, hl, heq⟩ | ⟨path, hl, hbr⟩⟩
  · rw [heq] at h; simp at h
  · rw [heq] at h; simp at h
  · rcases hbr with ⟨stderr, st, hr, ⟨hs, heq⟩ | ⟨hs, heq⟩⟩ | ⟨e, hr, heq⟩ |
      ⟨stdout, hr, ⟨e, hu, heq⟩ | ⟨kvs, hu, ⟨hm, heq⟩ | ⟨res, hm, heq⟩⟩⟩
    · rw [heq] at h; simp at h
    · rw [heq] at h; simp at h
    · rw [heq] at h; simp at h
    · rw [heq] at h; simp at h
    · rw [heq] at h; simp at h
    · rw [heq] at h
      simp only [Option.some.injEq] at h
      subst h
      refine ⟨rfl, rfl, rfl, rfl, by rw [heq], ?_⟩
      exact ⟨⟨path, args, plan.workingDir, stdinBytes plan⟩, stdout, kvs,
        by rw [heq], rfl, rfl, hr, hu, hm⟩

/-- Exactly one of a committed state and a non-empty diagnostics list. -/
lemma createExec_isSome_iff (env : Env) (plan : Plan) :
    (createExec env plan).state.isSome ↔ (createExec env plan).diagnostics = [] := by
  rcases createExec_cases env plan with ⟨hp, heq⟩ |
    ⟨p0, args, hp, ⟨e, hl, heq⟩ | ⟨path, hl,
      ⟨stderr, st, hr, ⟨hs, heq⟩ | ⟨hs, heq⟩⟩ | ⟨e, hr, heq⟩ |
      ⟨stdout, hr, ⟨e, hu, heq⟩ | ⟨kvs, hu, ⟨hm, heq⟩ | ⟨res, hm, heq⟩⟩⟩⟩⟩ <;>
    rw [heq] <;> simp

/-- Every recorded launch runs the looked-up head of the filtered program
with the remaining elements as arguments, the plan working directory, and
the marshalled query on stdin. -/
lemma createExec_launches_spec {env : Env} {plan : Plan} {ev : LaunchEvent}
    (h : ev ∈ (createExec env plan).launches) :
    ∃ p0 args path, processProgram plan.program = p0 :: args ∧
      env.lookPath p0 = Except.ok path ∧
      ev = ⟨path, args, plan.workingDir, stdinBytes plan⟩ := by
  rcases createExec_cases env plan with ⟨hp, heq⟩ |
    ⟨p0, args, hp, ⟨e, hl, heq⟩ | ⟨path, hl,
      ⟨stderr, st, hr, ⟨hs, heq⟩ | ⟨hs, heq⟩⟩ | ⟨e, hr, heq⟩ |
      ⟨stdout, hr, ⟨e, hu, heq⟩ | ⟨kvs, hu, ⟨hm, heq⟩ | ⟨res, hm, heq⟩⟩⟩⟩⟩ <;>
    rw [heq] at h <;> simp at h <;>
    exact ⟨p0, args, path, hp, hl, h⟩

/-! ## The claims -/

/-- C1: a ProgramSpec whose elements are all empty strings fails with the
"External Program Missing" diagnostic and launches no subprocess; with at
least one non-empty element, no diagnostic of that title is ever raised,
wherever the empty elements sit. -/
theorem claim_C1 (env : Env) (plan : Plan) :
    ((∀ v ∈ plan.program, v = "") →
      createExec env plan = ⟨[programMissingDiag], none, []⟩ ∧
      (createExec env plan).launches = []) ∧
    ((∃ v ∈ plan.program, v ≠ "") →
      ∀ d ∈ (createExec env plan).diagnostics, d.title ≠ "External Program Missing") := by
  constructor
  · intro h
    have hp : processProgram plan.program = [] := (processProgram_eq_nil_iff _).mpr h
    have heq : createExec env plan = ⟨[programMissingDiag], none, []⟩ := by
      unfold createExec; rw [hp]
    exact ⟨heq, by rw [heq]⟩
  · rintro ⟨v, hv, hne⟩ d hd
    rcases hp : processProgram plan.program with _ | ⟨p0, args⟩
    · exact absurd ((processProgram_eq_nil_iff _).mp hp v hv) hne
    · have heq : createExec env plan = lookupStage env plan p0 args := by
        unfold createExec; rw [hp]
      rw [heq] at hd
      rcases lookupStage_diag_title hd with h | h | h | h <;> rw [h] <;> decide

/-- C3: every Create call commits either a full success state with empty
diagnostics or no state with a non-empty diagnostic, never both; a
committed state always carries the completely decoded result of the single
launch, so no partial result survives a failure. -/
theorem claim_C3 (env : Env) (plan : Plan) :
    ((createExec env plan).state.isSome ↔ (createExec env plan).diagnostics = []) ∧
    ∀ s, (createExec env plan).state = some s →
      s.id = "example-id" ∧ s.program = plan.program ∧ s.workingDir = plan.workingDir ∧
      s.query = plan.query ∧
      ∃ ev stdout kvs, (createExec env plan).launches = [ev] ∧
        env.run ev.path ev.args ev.dir ev.stdin = RunOutcome.ok stdout ∧
        unmarshalMap stdout = Except.ok kvs ∧ mapValueFromStrings kvs = some s.result := by
  refine ⟨createExec_isSome_iff env plan, ?_⟩
  intro s hs
  obtain ⟨h1, h2, h3, h4, _, ev, stdout, kvs, h6, _, _, h9, h10, h11⟩ :=
    createExec_state_spec hs
  exact ⟨h1, h2, h3, h4, ev, stdout, kvs, h6, h9, h10, h11⟩

/-- C5: Read leaves the stored state unchanged and launches no
subprocess. -/
theorem claim_C5 (s : StateRec) :
    readExec s = ⟨s, []⟩ ∧ (readExec s).state = s ∧ (readExec s).launches = [] :=
  ⟨rfl, rfl, rfl⟩

/-- C7: every committed exchange carries the same constant identity token
"example-id", whatever the environment (and hence whatever the subprocess
wrote to stdout) and whatever the plan. -/
theorem claim_C7 (env1 env2 : Env) (plan1 plan2 : Plan) (s1 s2 : StateRec)
    (h1 : (createExec env1 plan1).state = some s1)
    (h2 : (createExec env2 plan2).state = some s2) :
    s1.id = "example-id" ∧ s2.id = "example-id" ∧ s1.id = s2.id := by
  have g1 := (createExec_state_spec h1).1
  have g2 := (createExec_state_spec h2).1
  exact ⟨g1, g2, by rw [g1, g2]⟩

/-- C7 witness: two successful exchanges with different program outputs
carry the same identity token. -/
theorem claim_C7_witness :
    ∃ s1 s2 : StateRec,
      (createExec (envWith (RunOutcome.ok "\x7b\x7d")) ⟨["prog"], "", []⟩).state = some s1 ∧
      (createExec (envWith (RunOutcome.ok "\x7b\"a\":\"b\"\x7d")) ⟨["other"], "", []⟩).state = some s2 ∧
      s1.id = "example-id" ∧ s2.id = "example-id" ∧ s1.id = s2.id := by
  refine ⟨⟨"example-id", ["prog"], "", [], []⟩,
    ⟨"example-id", ["other"], "", [], [("a", "b")]⟩, rfl, rfl, ?_⟩
  exact claim_C7 (envWith (RunOutcome.ok "\x7b\x7d"))
    (envWith (RunOutcome.ok "\x7b\"a\":\"b\"\x7d"))
    ⟨["prog"], "", []⟩ ⟨["other"], "", []⟩ _ _ rfl rfl

/-- C2 (amended): with the process succeeding, the decoder accepts exactly
what `json.Unmarshal` accepts into a string-keyed map — a JSON object, or
JSON null (which yields an empty result) — and only string-valued objects
become results; malformed JSON and non-object top-level shapes other than
null get the "Unexpected External Program Results" diagnostic, while an
object with a non-string value is rejected by map-conversion diagnostics
of a different title. -/
theorem claim_C2 (env : Env) (plan : Plan) (p0 path stdout : String) (args : List String)
    (hp : processProgram plan.program = p0 :: args)
    (hl : env.lookPath p0 = Except.ok path)
    (hr : env.run path args plan.workingDir (stdinBytes plan) = RunOutcome.ok stdout) :
    (∀ l : List (String × String),
      parseTop stdout = some (Json.obj (l.map (fun kv => (kv.1, Json.str kv.2)))) →
      (l.map Prod.fst).Nodup →
      createExec env plan =
        ⟨[], some ⟨"example-id", plan.program, plan.workingDir, plan.query, l⟩,
         [⟨path, args, plan.workingDir, stdinBytes plan⟩]⟩) ∧
    (parseTop stdout = some Json.null →
      createExec env plan =
        ⟨[], some ⟨"example-id", plan.program, plan.workingDir, plan.query, []⟩,
         [⟨path, args, plan.workingDir, stdinBytes plan⟩]⟩) ∧
    (parseTop stdout = none →
      createExec env plan =
        ⟨[resultMalformedDiag path invalidJsonMsg], none,
         [⟨path, args, plan.workingDir, stdinBytes plan⟩]⟩) ∧
    (∀ j, parseTop stdout = some j → jsonNonMapTop j = true →
      createExec env plan =
        ⟨[resultMalformedDiag path unmarshalTypeMsg], none,
         [⟨path, args, plan.workingDir, stdinBytes plan⟩]⟩) ∧
    (∀ kvs, parseTop stdout = some (Json.obj kvs) →
      (∃ kv ∈ dedupeKeys kvs, jsonAsString kv.2 = none) →
      createExec env plan =
        ⟨[mapConversionDiag, stateSetUnknownDiag], none,
         [⟨path, args, plan.workingDir, stdinBytes plan⟩]⟩ ∧
      ∀ d ∈ (createExec env plan).diagnostics,
        d.title ≠ "Unexpected External Program Results") := by
  have hc1 : createExec env plan = lookupStage env plan p0 args := by
    unfold createExec; rw [hp]
  have hc2 : createExec env plan = runStage env plan path args := by
    rw [hc1]; unfold lookupStage; rw [hl]
  have hc3 : createExec env plan =
      decodeStage plan path ⟨path, args, plan.workingDir, stdinBytes plan⟩ stdout := by
    rw [hc2]; unfold runStage; rw [hr]
  refine ⟨?_, ?_, ?_, ?_, ?_⟩
  · intro l hparse hnodup
    have hded : dedupeKeys (l.map (fun kv => (kv.1, Json.str kv.2))) =
        l.map (fun kv => (kv.1, Json.str kv.2)) := by
      apply dedupeKeys_of_nodup
      simpa [Function.comp] using hnodup
    have hun : unmarshalMap stdout =
        Except.ok (l.map (fun kv => (kv.1, Json.str kv.2))) := by
      unfold unmarshalMap; rw [hparse]; dsimp only; rw [hded]
    rw [hc3]; unfold decodeStage; rw [hun]; dsimp only
    rw [mapValueFromStrings_of_strs]
  · intro hparse
    have hun : unmarshalMap stdout = Except.ok [] := by
      unfold unmarshalMap; rw [hparse]
    rw [hc3]; unfold decodeStage; rw [hun]
    rfl
  · intro hparse
    have hun : unmarshalMap stdout = Except.error invalidJsonMsg := by
      unfold unmarshalMap; rw [hparse]
    rw [hc3]; unfold decodeStage; rw [hun]
  · intro j hparse hshape
    have hun : unmarshalMap stdout = Except.error unmarshalTypeMsg := by
      unfold unmarshalMap; rw [hparse]
      cases j <;> simp [jsonNonMapTop] at hshape ⊢
    rw [hc3]; unfold decodeStage; rw [hun]
  · intro kvs hparse hbad
    have hun : unmarshalMap stdout = Except.ok (dedupeKeys kvs) := by
      unfold unmarshalMap; rw [hparse]
    have hm : mapValueFromStrings (dedupeKeys kvs) = none := mapValueFromStrings_none hbad
    have heq : createExec env plan =
        ⟨[mapConversionDiag, stateSetUnknownDiag], none,
         [⟨path, args, plan.workingDir, stdinBytes plan⟩]⟩ := by
      rw [hc3]; unfold decodeStage; rw [hun]; dsimp only; rw [hm]
    refine ⟨heq, ?_⟩
    intro d hd
    rw [heq] at hd
    simp at hd
    rcases hd with hd | hd <;> rw [hd] <;> decide

/-- C2 counterexample: stdout "null" is not a JSON object, yet the
exchange succeeds and commits an (empty) result with no diagnostic at all;
and a non-string value (a number) is rejected with "Value Conversion
Error" diagnostics, not the claimed "Unexpected External Program Results"
error. -/
theorem claim_C2_counterexample :
    createExec (envWith (RunOutcome.ok "null")) ⟨["prog"], "", []⟩ =
      ⟨[], some ⟨"example-id", ["prog"], "", [], []⟩, [⟨"prog", [], "", "\x7b\x7d"⟩]⟩ ∧
    parseTop "null" = some Json.null ∧
    (createExec (envWith (RunOutcome.ok "\x7b\"a\":1\x7d")) ⟨["prog"], "", []⟩).diagnostics =
      [mapConversionDiag, stateSetUnknownDiag] ∧
    mapConversionDiag.title = "Value Conversion Error" ∧
    stateSetUnknownDiag.title = "Value Conversion Error" := by
  exact ⟨rfl, rfl, rfl, rfl, rfl⟩

/-- C2 witness: a string-valued JSON object on stdout becomes exactly its
pairs. -/
theorem claim_C2_witness :
    createExec (envWith (RunOutcome.ok "\x7b\"a\":\"b\"\x7d")) ⟨["prog"], "", []⟩ =
      ⟨[], some ⟨"example-id", ["prog"], "", [], [("a", "b")]⟩, [⟨"prog", [], "", "\x7b\x7d"⟩]⟩ :=
  (claim_C2 (envWith (RunOutcome.ok "\x7b\"a\":\"b\"\x7d")) ⟨["prog"], "", []⟩ "prog" "prog"
      "\x7b\"a\":\"b\"\x7d" [] rfl rfl rfl).1 [("a", "b")] rfl (by decide)

/-- C4: on a non-zero exit, a non-empty stderr capture is embedded
verbatim in the "External Program Execution Failed" message; an empty
capture gets the fixed message that names only the program path and the
exit state. -/
theorem claim_C4 (env : Env) (plan : Plan) (p0 path stderr stateMsg : String)
    (args : List String)
    (hp : processProgram plan.program = p0 :: args)
    (hl : env.lookPath p0 = Except.ok path)
    (hr : env.run path args plan.workingDir (stdinBytes plan) =
      RunOutcome.exitErr stderr stateMsg) :
    (stderr ≠ "" →
      createExec env plan =
        ⟨[execFailedStderrDiag path stderr stateMsg], none,
         [⟨path, args, plan.workingDir, stdinBytes plan⟩]⟩ ∧
      ∃ pre post, (execFailedStderrDiag path stderr stateMsg).detail = pre ++ stderr ++ post) ∧
    (stderr = "" →
      createExec env plan =
        ⟨[execFailedEmptyStderrDiag path stateMsg], none,
         [⟨path, args, plan.workingDir, stdinBytes plan⟩]⟩ ∧
      (execFailedEmptyStderrDiag path stateMsg).detail =
        "The data source received an unexpected error while attempting to execute the program.\n\n"
          ++ "The program was executed, however it returned no additional error messaging."
          ++ "\n\nProgram: " ++ path ++ "\nState: " ++ stateMsg) := by
  have hc1 : createExec env plan = lookupStage env plan p0 args := by
    unfold createExec; rw [hp]
  have hc2 : createExec env plan = runStage env plan path args := by
    rw [hc1]; unfold lookupStage; rw [hl]
  constructor
  · intro hs
    constructor
    · rw [hc2]; unfold runStage; rw [hr]; dsimp only; rw [if_neg hs]
    · refine ⟨"The data source received an unexpected error while attempting to execute the program."
        ++ "\n\nProgram: " ++ path ++ "\nError Message: ", "\nState: " ++ stateMsg, ?_⟩
      apply string_ext
      simp [execFailedStderrDiag, String.data_append, List.append_assoc]
  · intro hs
    constructor
    · rw [hc2]; unfold runStage; rw [hr]; dsimp only; rw [if_pos hs]
    · rfl

/-- C4 witness: a failing process with stderr "boom" and state
"exit status 1". -/
theorem claim_C4_witness :
    createExec (envWith (RunOutcome.exitErr "boom" "exit status 1")) ⟨["prog"], "", []⟩ =
      ⟨[execFailedStderrDiag "prog" "boom" "exit status 1"], none,
       [⟨"prog", [], "", "\x7b\x7d"⟩]⟩ ∧
    ∃ pre post,
      (execFailedStderrDiag "prog" "boom" "exit status 1").detail = pre ++ "boom" ++ post :=
  (claim_C4 (envWith (RunOutcome.exitErr "boom" "exit status 1")) ⟨["prog"], "", []⟩
    "prog" "prog" "boom" "exit status 1" [] rfl rfl rfl).1 (by decide)

/-- C6 (amended): when the deadline or cancellation fires before the child
exits — surfacing as `cmd.Output()` returning an `*exec.ExitError` whose
state is "signal: killed" after `exec.CommandContext` kills the child —
the exchange fails under the "External Program Execution Failed" category
(no distinct timeout category), with the generic execution-failure message
that names only the termination state, not the allotted time. -/
theorem claim_C6 (env : Env) (plan : Plan) (p0 path stderr : String) (args : List String)
    (hp : processProgram plan.program = p0 :: args)
    (hl : env.lookPath p0 = Except.ok path)
    (hr : env.run path args plan.workingDir (stdinBytes plan) =
      RunOutcome.exitErr stderr "signal: killed") :
    (∀ d ∈ (createExec env plan).diagnostics,
      d.title = "External Program Execution Failed") ∧
    (createExec env plan).state = none ∧
    (stderr = "" →
      (createExec env plan).diagnostics =
        [execFailedEmptyStderrDiag path "signal: killed"]) := by
  have hc1 : createExec env plan = lookupStage env plan p0 args := by
    unfold createExec; rw [hp]
  have hc2 : createExec env plan = runStage env plan path args := by
    rw [hc1]; unfold lookupStage; rw [hl]
  by_cases hs : stderr = ""
  · have heq : createExec env plan =
        ⟨[execFailedEmptyStderrDiag path "signal: killed"], none,
         [⟨path, args, plan.workingDir, stdinBytes plan⟩]⟩ := by
      rw [hc2]; unfold runStage; rw [hr]; dsimp only; rw [if_pos hs]
    refine ⟨?_, by rw [heq], fun _ => by rw [heq]⟩
    intro d hd
    rw [heq] at hd
    simp at hd
    rw [hd]
    rfl
  · have heq : createExec env plan =
        ⟨[execFailedStderrDiag path stderr "signal: killed"], none,
         [⟨path, args, plan.workingDir, stdinBytes plan⟩]⟩ := by
      rw [hc2]; unfold runStage; rw [hr]; dsimp only; rw [if_neg hs]
    refine ⟨?_, by rw [heq], fun h => absurd h hs⟩
    intro d hd
    rw [heq] at hd
    simp at hd
    rw [hd]
    rfl

/-- C6 counterexample: a deadline kill ("signal: killed", empty stderr)
produces the generic execution-failure diagnostic whose message contains
no indication of time at all — no "time", "allotted", "deadline" or
"within" — contradicting the claimed "message indicating the process did
not exit within the allotted time". -/
theorem claim_C6_counterexample :
    createExec (envWith (RunOutcome.exitErr "" "signal: killed")) ⟨["prog"], "", []⟩ =
      ⟨[execFailedEmptyStderrDiag "prog" "signal: killed"], none,
       [⟨"prog", [], "", "\x7b\x7d"⟩]⟩ ∧
    strSub "time" (execFailedEmptyStderrDiag "prog" "signal: killed").detail = false ∧
    strSub "allotted" (execFailedEmptyStderrDiag "prog" "signal: killed").detail = false ∧
    strSub "deadline" (execFailedEmptyStderrDiag "prog" "signal: killed").detail = false ∧
    strSub "within" (execFailedEmptyStderrDiag "prog" "signal: killed").detail = false := by
  refine ⟨rfl, ?_, ?_, ?_, ?_⟩ <;> decide

/-- C6 witness: the deadline kill surfaces as the execution-failure
category with the state-naming message. -/
theorem claim_C6_witness :
    (createExec (envWith (RunOutcome.exitErr "" "signal: killed")) ⟨["prog"], "", []⟩).state =
      none ∧
    (createExec (envWith (RunOutcome.exitErr "" "signal: killed")) ⟨["prog"], "", []⟩).diagnostics =
      [execFailedEmptyStderrDiag "prog" "signal: killed"] := by
  obtain ⟨h1, h2, h3⟩ := claim_C6 (envWith (RunOutcome.exitErr "" "signal: killed"))
    ⟨["prog"], "", []⟩ "prog" "prog" "" [] rfl rfl rfl
  exact ⟨h2, h3 rfl⟩

/-- C8: the bytes written to the child's stdin are exactly the JSON
serialization of the query after dropping every entry whose value is the
empty string (for plain values the remaining pairs are kept verbatim), and
the encode step can never fail — no "Query Handling Failed" diagnostic is
reachable. -/
theorem claim_C8 (env : Env) (plan : Plan) :
    (∀ ev ∈ (createExec env plan).launches, ev.stdin = jsonMarshal (buildQuery plan.query)) ∧
    buildQuery plan.query =
      (plan.query.filter (fun kv => kv.2 != "")).map (fun kv => (kv.1, stripValue kv.2)) ∧
    ((∀ kv ∈ plan.query, ∀ c ∈ kv.2.data, plainChar c) →
      buildQuery plan.query = plan.query.filter (fun kv => kv.2 != "")) ∧
    (∀ d ∈ (createExec env plan).diagnostics, d.title ≠ "Query Handling Failed") := by
  refine ⟨?_, buildQuery_eq plan.query, ?_, ?_⟩
  · intro ev hev
    obtain ⟨p0, args, path, hp, hl, heq⟩ := createExec_launches_spec hev
    rw [heq]
    rfl
  · intro h
    rw [buildQuery_eq]
    have hcong : ∀ kv ∈ plan.query.filter (fun kv => kv.2 != ""),
        (fun kv => (kv.1, stripValue kv.2)) kv = id kv := by
      intro kv hkv
      have hmem := List.mem_of_mem_filter hkv
      simp [stripValue_plain (h kv hmem)]
    rw [List.map_congr_left hcong, List.map_id]
  · intro d hd
    rcases hp : processProgram plan.program with _ | ⟨p0, args⟩
    · have heq : createExec env plan = ⟨[programMissingDiag], none, []⟩ := by
        unfold createExec; rw [hp]
      rw [heq] at hd
      simp at hd
      rw [hd]
      decide
    · have heq : createExec env plan = lookupStage env plan p0 args := by
        unfold createExec; rw [hp]
      rw [heq] at hd
      rcases lookupStage_diag_title hd with h | h | h | h <;> rw [h] <;> decide

/-- C9 (amended): the provider deletes every double-quote character from
the `%q` rendering of each program element and each query value, so no
double quote ever reaches the argument vector or the encoded query — but
because `%q` escapes an embedded quote as backslash-quote, deleting the
quotes leaves the escaping backslash behind, and inputs differing only by
embedded quotes need not produce identical argument vectors. -/
theorem claim_C9 (env : Env) (plan : Plan) :
    (∀ v, stripValue v = removeQuotes (goQuote v)) ∧
    (∀ v, '"' ∉ (stripValue v).data) ∧
    (∀ ev ∈ (createExec env plan).launches, ∀ a ∈ ev.args, '"' ∉ a.data) ∧
    (∀ kv ∈ buildQuery plan.query, '"' ∉ kv.2.data) := by
  refine ⟨fun v => rfl, stripValue_no_quote, ?_, ?_⟩
  · intro ev hev a ha
    obtain ⟨p0, args, path, hp, hl, heq⟩ := createExec_launches_spec hev
    rw [heq] at ha
    have hmem : a ∈ processProgram plan.program := by
      rw [hp]
      exact List.mem_cons_of_mem _ ha
    obtain ⟨v, _, hav⟩ := mem_processProgram hmem
    rw [hav]
    exact stripValue_no_quote v
  · intro kv hkv
    rw [buildQuery_eq] at hkv
    obtain ⟨kv0, _, heq⟩ := List.mem_map.mp hkv
    rw [← heq]
    exact stripValue_no_quote kv0.2

/-- C9 counterexample: the elements "a\"b" and "ab" differ only by an
embedded double quote, yet they produce the argument vectors ["a\\b"] and
["ab"] — the escaping backslash of the `%q` rendering survives the quote
deletion, so the launches differ. -/
theorem claim_C9_counterexample :
    createExec (envWith (RunOutcome.ok "\x7b\x7d")) ⟨["x", "a\"b"], "", []⟩ =
      ⟨[], some ⟨"example-id", ["x", "a\"b"], "", [], []⟩,
       [⟨"x", ["a\\b"], "", "\x7b\x7d"⟩]⟩ ∧
    createExec (envWith (RunOutcome.ok "\x7b\x7d")) ⟨["x", "ab"], "", []⟩ =
      ⟨[], some ⟨"example-id", ["x", "ab"], "", [], []⟩,
       [⟨"x", ["ab"], "", "\x7b\x7d"⟩]⟩ ∧
    (createExec (envWith (RunOutcome.ok "\x7b\x7d")) ⟨["x", "a\"b"], "", []⟩).launches ≠
      (createExec (envWith (RunOutcome.ok "\x7b\x7d")) ⟨["x", "ab"], "", []⟩).launches := by
  refine ⟨rfl, rfl, ?_⟩
  decide

/-- C10: when the query is absent (empty) or every value is the empty
string, the child's stdin receives exactly the two bytes of the empty JSON
object. -/
theorem claim_C10 (env : Env) (plan : Plan) (h : ∀ kv ∈ plan.query, kv.2 = "") :
    (∀ ev ∈ (createExec env plan).launches, ev.stdin = "\x7b\x7d") ∧
    jsonMarshal (buildQuery plan.query) = "\x7b\x7d" := by
  have hfil : plan.query.filter (fun kv => kv.2 != "") = [] := by
    apply List.filter_eq_nil_iff.mpr
    intro kv hkv
    simp [h kv hkv]
  have hbq : buildQuery plan.query = [] := by
    rw [buildQuery_eq, hfil]
    rfl
  refine ⟨?_, by rw [hbq]; rfl⟩
  intro ev hev
  obtain ⟨p0, args, path, hp, hl, heq⟩ := createExec_launches_spec hev
  rw [heq]
  show stdinBytes plan = "\x7b\x7d"
  unfold stdinBytes
  rw [hbq]
  rfl

/-- C10 witness: a query of empty-string values marshals to the empty
object. -/
theorem claim_C10_witness :
    jsonMarshal (buildQuery [("a", ""), ("b", "")]) = "\x7b\x7d" :=
  (claim_C10 (envWith (RunOutcome.ok "")) ⟨["p"], "", [("a", ""), ("b", "")]⟩
    (by decide)).2

end External
